import Mathlib

/-!
Verification of the status synchronization and aggregation engine of the
jaas-dashboard repository, shallowly embedded in Lean.

JavaScript semantics used by the embedding:
* JS strings are Lean `String`s; `String.split` is embedded by a
  substring-splitting function on the underlying character lists.
* JS objects that may be `null`/`undefined` are embedded as `Option`.
* A thrown `TypeError` (such as dereferencing `undefined`) is embedded as
  `Option.none` in the result of the function that would throw.
* `Array.prototype.forEach` is a left fold; an early `return` inside its
  callback only skips the rest of the current iteration, never the loop.
-/

/-- Embedding of `sep.isPrefixOf`-style prefix test used by the split
function; `List.isPrefixOf` from the library is reused directly. -/
def containsSeq (sep : List Char) : List Char → Bool
  | [] => sep.isEmpty
  | c :: rest => sep.isPrefixOf (c :: rest) || containsSeq sep rest

/-- Core of the embedding of `String.prototype.split`.  The `Nat` argument
is a skip counter: after a separator match the remaining `sep.length - 1`
characters of the separator are consumed structurally. -/
def splitSkip (sep : List Char) : Nat → List Char → List (List Char)
  | _, [] => [[]]
  | 0, c :: rest =>
    if sep.isPrefixOf (c :: rest) ∧ sep ≠ [] then
      [] :: splitSkip sep (sep.length - 1) rest
    else
      match splitSkip sep 0 rest with
      | [] => [[c]]
      | h :: t => (c :: h) :: t
  | k + 1, _ :: rest => splitSkip sep k rest

/-- Embedding of JavaScript `s.split(sep)`. -/
def jsSplit (s sep : String) : List String :=
  if sep = "" then s.data.map (fun c => String.mk [c])
  else (splitSkip sep.data 0 s.data).map String.mk

/-- Embedding of JavaScript substring containment, used to phrase
hypotheses about where separators occur. -/
def strContains (s pat : String) : Bool :=
  containsSeq pat.data s.data

/-- Embedding of JavaScript `s.replace(pat, rep)` with a string pattern,
which replaces only the first occurrence. -/
def jsReplaceOnce (s pat rep : String) : String :=
  if pat = "" then rep ++ s
  else
    match jsSplit s pat with
    | [] => s
    | [_] => s
    | h :: t => h ++ rep ++ String.intercalate pat t

/-- Embedding of JavaScript `Array.prototype.indexOf` (`-1` when absent),
as used on `statusOrder`. -/
def jsIndexOf : List String → String → Int
  | [], _ => -1
  | a :: rest, x =>
    if a = x then 0
    else
      let r := jsIndexOf rest x
      if r = -1 then -1 else r + 1

-- Sanity checks for the string primitives.
example : jsSplit "cloudcred-aws_u@ext_n" "cloudcred-" = ["", "aws_u@ext_n"] := by decide
example : jsSplit "a@b@c" "@" = ["a", "b", "c"] := by decide
example : jsSplit "abc" "x" = ["abc"] := by decide
example : jsReplaceOnce "user-bob" "user-" "" = "bob" := by decide
example : jsReplaceOnce "cloud-aws" "cloud-" "" = "aws" := by decide
example : jsIndexOf ["running", "alert", "blocked"] "alert" = 1 := by decide

/-! ## Data model (spec section 3, as consumed by `src/app/utils.js`) -/

/-- A `status` record of an application, unit or machine: `{status, info}`. -/
structure EntityStatus where
  status : String
  info : String
deriving DecidableEq, Repr

/-- A unit as read by the rollup: only `agentStatus` and `workloadStatus`
are consulted (`subordinates` are never visited by the rollup). -/
structure ModelUnit where
  agentStatus : EntityStatus
  workloadStatus : EntityStatus
deriving DecidableEq, Repr

/-- An application: its own status record and its units keyed by unit id
(iteration order of `Object.keys` is the list order). -/
structure Application where
  status : EntityStatus
  units : List (String × ModelUnit)
deriving DecidableEq, Repr

/-- The `info` record of a model, as stored by `updateModelInfo`. -/
structure ModelInfo where
  name : String
  ownerTag : String
  cloudTag : String
  cloudRegion : String
  cloudCredentialTag : String
deriving DecidableEq, Repr

/-- The `model` sub-record of a full-status result (`data.model`), as read
by the cloud and region filter segments. -/
structure ModelStatus where
  cloudTag : String
  region : Option String
deriving DecidableEq, Repr

/-- One entry of the `modelData` collection in the store: applications
(for the rollup), plus the optional `info` and `model` records (for
filtering).  Absent records are `none`. -/
structure ModelData where
  applications : List (String × Application)
  info : Option ModelInfo
  model : Option ModelStatus
deriving DecidableEq, Repr

/-! ## Status rollup (`src/app/utils.js`) -/

/-- `const statusOrder = ["running", "alert", "blocked"]` — highest status
to the right. -/
def statusOrder : List String := ["running", "alert", "blocked"]

/-- `setHighestStatus(entityStatus, highestStatus)`. -/
def setHighestStatus (entityStatus highestStatus : String) : String :=
  if jsIndexOf statusOrder entityStatus > jsIndexOf statusOrder highestStatus then
    entityStatus
  else highestStatus

/-- `checkHighestStatus(highestStatus)`: compares against
`statusOrder[statusOrder.length - 1]`. -/
def checkHighestStatus (highestStatus : String) : Bool :=
  highestStatus == statusOrder.getD (statusOrder.length - 1) ""

/-- The `{status, message}` result of the per-entity status-group
functions; `message` is always `null` in the source. -/
structure StatusGroupResult where
  status : String
  message : Option String
deriving DecidableEq, Repr

/-- `getApplicationStatusGroup`: `blocked` on `"blocked"`, `alert` on
`"unknown"`, else `running`.  Both `if`s run in sequence, as in the
source. -/
def getApplicationStatusGroup (application : Application) : StatusGroupResult :=
  let blocked := ["blocked"]
  let alert := ["unknown"]
  let status := application.status.status
  let response : StatusGroupResult := { status := "running", message := none }
  let response := if blocked.contains status then { response with status := "blocked" } else response
  if alert.contains status then { response with status := "alert" } else response

/-- `getUnitStatusGroup`: `blocked` on `"lost"`, `alert` on
`"allocating"`, else `running`. -/
def getUnitStatusGroup (unit : ModelUnit) : StatusGroupResult :=
  let blocked := ["lost"]
  let alert := ["allocating"]
  let status := unit.agentStatus.status
  let response : StatusGroupResult := { status := "running", message := none }
  let response := if blocked.contains status then { response with status := "blocked" } else response
  if alert.contains status then { response with status := "alert" } else response

/-- `{highestStatus, messages}` result of `getModelStatusGroupData`. -/
structure GroupData where
  highestStatus : String
  messages : List String
deriving DecidableEq, Repr

/-- Body of the inner `app.units` `forEach` callback of
`getModelStatusGroupData`.  The early `return` after pushing a message
only ends the current callback invocation, so the fold continues with the
remaining units either way. -/
def unitStep (acc : String × List String) (unitEntry : String × ModelUnit) :
    String × List String :=
  let unitStatus := (getUnitStatusGroup unitEntry.snd).status
  let highestStatus := setHighestStatus unitStatus acc.fst
  if checkHighestStatus highestStatus then
    (highestStatus, acc.snd ++ [unitEntry.snd.agentStatus.info])
  else
    (highestStatus, acc.snd)

/-- Body of the outer applications `forEach` callback of
`getModelStatusGroupData`: on reaching the top status the application's
own message is pushed and its units are skipped; otherwise the units are
folded with `unitStep`. -/
def appStep (acc : String × List String) (appEntry : String × Application) :
    String × List String :=
  let app := appEntry.snd
  let appStatus := (getApplicationStatusGroup app).status
  let highestStatus := setHighestStatus appStatus acc.fst
  if checkHighestStatus highestStatus then
    (highestStatus, acc.snd ++ [app.status.info])
  else
    app.units.foldl unitStep (highestStatus, acc.snd)

/-- `getModelStatusGroupData(model)`: fold all applications starting from
the lowest status `statusOrder[0]` and an empty message list. -/
def getModelStatusGroupData (model : ModelData) : GroupData :=
  let result := model.applications.foldl appStep (statusOrder.headD "", [])
  { highestStatus := result.fst, messages := result.snd }

/-- `extractOwnerName(tag)`: `tag.split("@")[0].replace("user-", "")`. -/
def extractOwnerName (tag : String) : String :=
  jsReplaceOnce ((jsSplit tag "@").headD "") "user-" ""

/-- `extractCloudName(tag)`: `tag.replace("cloud-", "")`. -/
def extractCloudName (tag : String) : String :=
  jsReplaceOnce tag "cloud-" ""

/-- `extractCredentialName(tag)`:
`tag.split("cloudcred-")[1].split("@")[1].split("_")[1]`.  Indexing past
the end of a split result yields `undefined` in JS and the subsequent
`.split` throws; that is the `none` result here. -/
def extractCredentialName (tag : String) : Option String :=
  match (jsSplit tag "cloudcred-").get? 1 with
  | none => none
  | some s1 =>
    match (jsSplit s1 "@").get? 1 with
    | none => none
    | some s2 => (jsSplit s2 "_").get? 1

-- Sanity checks against hand-evaluated JS.
example : extractOwnerName "user-bob@external" = "bob" := by decide
example : extractCloudName "cloud-aws" = "aws" := by decide
example : extractCredentialName "cloudcred-aws_user-admin@local_cred1" = some "cred1" := by
  decide
example : extractCredentialName "bogus" = none := by decide
example : extractCredentialName "cloudcred-noatsign" = none := by decide
example :
    getModelStatusGroupData
      { applications :=
          [("app1",
            { status := { status := "running", info := "" },
              units :=
                [("u/0",
                  { agentStatus := { status := "lost", info := "m1" },
                    workloadStatus := { status := "idle", info := "" } }),
                 ("u/1",
                  { agentStatus := { status := "idle", info := "m2" },
                    workloadStatus := { status := "idle", info := "" } })] })],
        info := none, model := none }
      = { highestStatus := "blocked", messages := ["m1", "m2"] } := by decide

/-! ## Spec-side severity order (spec section 3: `running < alert < blocked`) -/

/-- Rank of a severity in the fixed order `running < alert < blocked`. -/
def sevRank (s : String) : Nat :=
  if s = "blocked" then 2 else if s = "alert" then 1 else 0

/-- Maximum of two severities under the fixed order (left-biased on
ties). -/
def sevMax (a b : String) : String :=
  if sevRank a < sevRank b then b else a

/-- The severities of all of a model's applications and of all of their
units, in iteration order: for each application its own classification
followed by its units' classifications. -/
def severities (model : ModelData) : List String :=
  model.applications.flatMap fun a =>
    (getApplicationStatusGroup a.snd).status ::
      a.snd.units.map fun u => (getUnitStatusGroup u.snd).status

theorem sevRank_le_two (x : String) : sevRank x ≤ 2 := by
  unfold sevRank
  split
  · omega
  · split <;> omega

theorem sevMax_blocked (x : String) : sevMax "blocked" x = "blocked" := by
  unfold sevMax
  rw [if_neg]
  have h := sevRank_le_two x
  have hb : sevRank "blocked" = 2 := by decide
  omega

theorem foldl_sevMax_blocked (l : List String) :
    l.foldl sevMax "blocked" = "blocked" := by
  induction l with
  | nil => rfl
  | cons x rest ih => simpa [sevMax_blocked] using ih

theorem sevMax_mem {a b : String} (ha : a ∈ statusOrder) (hb : b ∈ statusOrder) :
    sevMax a b ∈ statusOrder := by
  unfold sevMax
  split <;> assumption

theorem foldl_sevMax_mem (l : List String) (h : String) (hh : h ∈ statusOrder)
    (hl : ∀ x ∈ l, x ∈ statusOrder) : l.foldl sevMax h ∈ statusOrder := by
  induction l generalizing h with
  | nil => exact hh
  | cons x rest ih =>
    exact ih (sevMax h x) (sevMax_mem hh (hl x (by simp)))
      (fun y hy => hl y (by simp [hy]))

theorem setHighestStatus_eq_sevMax (e h : String) (he : e ∈ statusOrder)
    (hh : h ∈ statusOrder) : setHighestStatus e h = sevMax h e := by
  simp only [statusOrder, List.mem_cons, List.not_mem_nil, or_false] at he hh
  rcases he with rfl | rfl | rfl <;> rcases hh with rfl | rfl | rfl <;> decide

theorem checkHighestStatus_iff (h : String) :
    checkHighestStatus h = true ↔ h = "blocked" := by
  simp [checkHighestStatus, statusOrder]

theorem getApplicationStatusGroup_status_mem (a : Application) :
    (getApplicationStatusGroup a).status ∈ statusOrder := by
  simp only [getApplicationStatusGroup]
  split
  · simp [statusOrder]
  · split <;> simp [statusOrder]

theorem getUnitStatusGroup_status_mem (u : ModelUnit) :
    (getUnitStatusGroup u).status ∈ statusOrder := by
  simp only [getUnitStatusGroup]
  split
  · simp [statusOrder]
  · split <;> simp [statusOrder]

/-! ## The rollup computes the severity maximum -/

theorem unitFold_fst (units : List (String × ModelUnit)) :
    ∀ (h : String) (ms : List String), h ∈ statusOrder →
      (units.foldl unitStep (h, ms)).fst =
        (units.map fun u => (getUnitStatusGroup u.snd).status).foldl sevMax h := by
  induction units with
  | nil => intro h ms _; rfl
  | cons u rest ih =>
    intro h ms hmem
    have hu := getUnitStatusGroup_status_mem u.snd
    have heq := setHighestStatus_eq_sevMax (getUnitStatusGroup u.snd).status h hu hmem
    have hmem2 : sevMax h (getUnitStatusGroup u.snd).status ∈ statusOrder :=
      sevMax_mem hmem hu
    simp only [List.foldl_cons, List.map_cons, unitStep, heq]
    split
    · exact ih _ _ hmem2
    · exact ih _ _ hmem2

theorem unitFold_fst_mem (units : List (String × ModelUnit)) (h : String)
    (ms : List String) (hmem : h ∈ statusOrder) :
    (units.foldl unitStep (h, ms)).fst ∈ statusOrder := by
  rw [unitFold_fst units h ms hmem]
  refine foldl_sevMax_mem _ _ hmem ?_
  intro x hx
  simp only [List.mem_map] at hx
  obtain ⟨u, _, rfl⟩ := hx
  exact getUnitStatusGroup_status_mem u.snd

theorem appFold_fst (apps : List (String × Application)) :
    ∀ (h : String) (ms : List String), h ∈ statusOrder →
      (apps.foldl appStep (h, ms)).fst =
        (apps.flatMap fun a =>
          (getApplicationStatusGroup a.snd).status ::
            a.snd.units.map fun u => (getUnitStatusGroup u.snd).status).foldl sevMax h := by
  induction apps with
  | nil => intro h ms _; rfl
  | cons a rest ih =>
    intro h ms hmem
    have ha := getApplicationStatusGroup_status_mem a.snd
    have heq := setHighestStatus_eq_sevMax (getApplicationStatusGroup a.snd).status h ha hmem
    have hmem2 : sevMax h (getApplicationStatusGroup a.snd).status ∈ statusOrder :=
      sevMax_mem hmem ha
    simp only [List.foldl_cons, List.flatMap_cons, appStep, heq, List.foldl_append]
    split
    · rename_i hchk
      rw [(checkHighestStatus_iff _).mp hchk] at hmem2 ⊢
      rw [ih _ _ hmem2]
      simp [foldl_sevMax_blocked]
    · rename_i hchk
      have hinner := unitFold_fst a.snd.units _ ms hmem2
      have hinnerMem := unitFold_fst_mem a.snd.units _ ms hmem2
      have hpair :
          a.snd.units.foldl unitStep (sevMax h (getApplicationStatusGroup a.snd).status, ms) =
            ((a.snd.units.foldl unitStep
                (sevMax h (getApplicationStatusGroup a.snd).status, ms)).fst,
             (a.snd.units.foldl unitStep
                (sevMax h (getApplicationStatusGroup a.snd).status, ms)).snd) := rfl
    -- fold the remaining applications from the state the unit loop left
      rw [hpair, ih _ _ hinnerMem, hinner]

theorem getModelStatusGroupData_fst (m : ModelData) :
    (getModelStatusGroupData m).highestStatus =
      (severities m).foldl sevMax "running" := by
  have h : ("running" : String) ∈ statusOrder := by simp [statusOrder]
  simpa [getModelStatusGroupData, severities] using
    appFold_fst m.applications "running" [] h

theorem highestStatus_mem (m : ModelData) :
    (getModelStatusGroupData m).highestStatus ∈ statusOrder := by
  rw [getModelStatusGroupData_fst]
  refine foldl_sevMax_mem _ _ (by simp [statusOrder]) ?_
  intro x hx
  simp only [severities, List.mem_flatMap, List.mem_cons, List.mem_map] at hx
  obtain ⟨a, _, rfl | ⟨u, _, rfl⟩⟩ := hx
  · exact getApplicationStatusGroup_status_mem a.snd
  · exact getUnitStatusGroup_status_mem u.snd

/-! ## Claims C1, C2, C3 -/

/-- C1: for every model record, `getModelStatusGroupData(M).highestStatus`
is the maximum, under the fixed order `running < alert < blocked`, of the
severities of all of `M`'s applications and all of their units (folded
from the bottom element `running`, which is also the result for a model
with no entities). -/
theorem getModelStatusGroupData_highest_eq_max (m : ModelData) :
    (getModelStatusGroupData m).highestStatus =
      (severities m).foldl sevMax "running" :=
  getModelStatusGroupData_fst m

/-- A concrete one-application model whose first unit is `"lost"` and
whose second unit is `"idle"`: used to refute C2 as stated. -/
def modelTwoUnits : ModelData :=
  { applications :=
      [("app1",
        { status := { status := "running", info := "app1 message" },
          units :=
            [("u/0",
              { agentStatus := { status := "lost", info := "m1" },
                workloadStatus := { status := "idle", info := "" } }),
             ("u/1",
              { agentStatus := { status := "idle", info := "m2" },
                workloadStatus := { status := "idle", info := "" } })] })],
    info := none, model := none }

/-- C2 counterexample: the claim says that after the unit raising
`highestStatus` to `blocked` appends its message, no further units of the
same application are examined and no messages from them are appended.  In
the source the early `return` only ends the current `forEach` callback,
so the second unit (`"idle"`, message `"m2"`) is still examined, passes
the `checkHighestStatus` test, and its message is appended as well. -/
theorem getModelStatusGroupData_unit_shortCircuit_cex :
    getModelStatusGroupData modelTwoUnits =
        { highestStatus := "blocked", messages := ["m1", "m2"] } ∧
      (["m1", "m2"] : List String) ≠ ["m1"] := by
  constructor
  · decide
  · decide

/-- C2 amended: once `highestStatus` is `blocked`, the unit loop does not
stop — every remaining unit of the application is still examined and each
one's `agentStatus.info` is appended; likewise every remaining
application has its own `status.info` appended at the application level
(its units being skipped). -/
theorem blocked_appends_all_remaining_messages :
    (∀ (units : List (String × ModelUnit)) (ms : List String),
        units.foldl unitStep ("blocked", ms) =
          ("blocked", ms ++ units.map fun u => u.snd.agentStatus.info)) ∧
      (∀ (apps : List (String × Application)) (ms : List String),
        apps.foldl appStep ("blocked", ms) =
          ("blocked", ms ++ apps.map fun a => a.snd.status.info)) := by
  constructor
  · intro units
    induction units with
    | nil => intro ms; simp
    | cons u rest ih =>
      intro ms
      have hset : setHighestStatus (getUnitStatusGroup u.snd).status "blocked" = "blocked" := by
        rw [setHighestStatus_eq_sevMax _ _ (getUnitStatusGroup_status_mem u.snd)
          (by simp [statusOrder]), sevMax_blocked]
      simp [unitStep, hset, checkHighestStatus, statusOrder, ih]
  · intro apps
    induction apps with
    | nil => intro ms; simp
    | cons a rest ih =>
      intro ms
      have hset :
          setHighestStatus (getApplicationStatusGroup a.snd).status "blocked" = "blocked" := by
        rw [setHighestStatus_eq_sevMax _ _ (getApplicationStatusGroup_status_mem a.snd)
          (by simp [statusOrder]), sevMax_blocked]
      simp [appStep, hset, checkHighestStatus, statusOrder, ih]

/-- Model `B` of the spec's example: two applications, both `"running"`,
one unit each with agent status `"allocating"`. -/
def modelB : ModelData :=
  { applications :=
      [("app1",
        { status := { status := "running", info := "app1 message" },
          units :=
            [("app1/0",
              { agentStatus := { status := "allocating", info := "unit1 info" },
                workloadStatus := { status := "waiting", info := "" } })] }),
       ("app2",
        { status := { status := "running", info := "app2 message" },
          units :=
            [("app2/0",
              { agentStatus := { status := "allocating", info := "unit2 info" },
                workloadStatus := { status := "waiting", info := "" } })] })],
    info := none, model := none }

/-- C3 counterexample: the claim predicts
`messages = ["unit1 info", "unit2 info"]`, but messages are only captured
when `checkHighestStatus` sees the top status `blocked`; at `alert` the
source appends nothing, so `messages` is empty. -/
theorem getModelStatusGroupData_modelB_cex :
    (getModelStatusGroupData modelB).messages = [] ∧
      ([] : List String) ≠ ["unit1 info", "unit2 info"] := by
  constructor
  · decide
  · decide

/-- C3 amended: for model `B` the rollup returns `highestStatus "alert"`
and an empty message list — messages are captured only when the maximum
severity `blocked` is reached, which `alert` never triggers. -/
theorem getModelStatusGroupData_modelB :
    getModelStatusGroupData modelB = { highestStatus := "alert", messages := [] } := by
  decide

/-! ## Grouping by status (`src/app/selectors.js` / `src/app/root.js`) -/

/-- The `{blocked: [], alert: [], running: []}` accumulator of
`groupModelsByStatus`. -/
structure GroupedStatuses where
  blocked : List ModelData
  alert : List ModelData
  running : List ModelData
deriving DecidableEq, Repr

/-- One iteration of the `for...in` loop of `groupModelsByStatus`:
`grouped[highestStatus].push(model)`.  A status outside the three keys
would index `undefined` and throw, embedded as `none`. -/
def groupStep (grouped : GroupedStatuses) (entry : String × ModelData) :
    Option GroupedStatuses :=
  let hs := (getModelStatusGroupData entry.snd).highestStatus
  if hs = "blocked" then some { grouped with blocked := grouped.blocked ++ [entry.snd] }
  else if hs = "alert" then some { grouped with alert := grouped.alert ++ [entry.snd] }
  else if hs = "running" then some { grouped with running := grouped.running ++ [entry.snd] }
  else none

/-- The loop of `groupModelsByStatus` over the entries of `modelData`. -/
def groupFold : List (String × ModelData) → GroupedStatuses → Option GroupedStatuses
  | [], g => some g
  | e :: rest, g =>
    match groupStep g e with
    | none => none
    | some g2 => groupFold rest g2

/-- `groupModelsByStatus(modelData)`: falsy input returns the empty
groups, otherwise each model is pushed onto the bucket named by its
rollup `highestStatus`. -/
def groupModelsByStatus (modelData : Option (List (String × ModelData))) :
    Option GroupedStatuses :=
  match modelData with
  | none => some { blocked := [], alert := [], running := [] }
  | some l => groupFold l { blocked := [], alert := [], running := [] }

/-- The `{blocked, alert, running}` length tally of
`countModelStatusGroups`. -/
structure StatusCounts where
  blocked : Nat
  alert : Nat
  running : Nat
deriving DecidableEq, Repr

/-- `countModelStatusGroups(groupedModelStatuses)`. -/
def countModelStatusGroups (groupedModelStatuses : GroupedStatuses) : StatusCounts :=
  { blocked := groupedModelStatuses.blocked.length,
    alert := groupedModelStatuses.alert.length,
    running := groupedModelStatuses.running.length }

theorem groupFold_eq (l : List (String × ModelData)) :
    ∀ g : GroupedStatuses,
      groupFold l g = some
        { blocked := g.blocked ++ (l.map Prod.snd).filter
            (fun m => (getModelStatusGroupData m).highestStatus == "blocked"),
          alert := g.alert ++ (l.map Prod.snd).filter
            (fun m => (getModelStatusGroupData m).highestStatus == "alert"),
          running := g.running ++ (l.map Prod.snd).filter
            (fun m => (getModelStatusGroupData m).highestStatus == "running") } := by
  induction l with
  | nil => intro g; simp [groupFold]
  | cons e rest ih =>
    intro g
    have hmem := highestStatus_mem e.snd
    simp only [statusOrder, List.mem_cons, List.not_mem_nil, or_false] at hmem
    rcases hmem with hs | hs | hs <;>
      simp [groupFold, groupStep, hs, ih, List.filter_cons]

theorem filter_status_length_sum (ms : List ModelData) :
    (ms.filter (fun m => (getModelStatusGroupData m).highestStatus == "blocked")).length +
      (ms.filter (fun m => (getModelStatusGroupData m).highestStatus == "alert")).length +
      (ms.filter (fun m => (getModelStatusGroupData m).highestStatus == "running")).length =
      ms.length := by
  induction ms with
  | nil => rfl
  | cons m rest ih =>
    have hmem := highestStatus_mem m
    simp only [statusOrder, List.mem_cons, List.not_mem_nil, or_false] at hmem
    rcases hmem with hs | hs | hs <;> simp [List.filter_cons, hs] <;> omega

/-- C4: `groupModelsByStatus` always succeeds and partitions its input:
the result has exactly the three buckets `blocked`, `alert`, `running`;
each bucket is the subsequence (in input iteration order) of models whose
rollup `highestStatus` names that bucket, so every model lands in exactly
one bucket; and the bucket counts sum to the number of input models. -/
theorem groupModelsByStatus_partition (l : List (String × ModelData)) :
    ∃ g : GroupedStatuses,
      groupModelsByStatus (some l) = some g ∧
      g.blocked = (l.map Prod.snd).filter
        (fun m => (getModelStatusGroupData m).highestStatus == "blocked") ∧
      g.alert = (l.map Prod.snd).filter
        (fun m => (getModelStatusGroupData m).highestStatus == "alert") ∧
      g.running = (l.map Prod.snd).filter
        (fun m => (getModelStatusGroupData m).highestStatus == "running") ∧
      (countModelStatusGroups g).blocked + (countModelStatusGroups g).alert +
          (countModelStatusGroups g).running = l.length := by
  refine ⟨{ blocked := (l.map Prod.snd).filter
              (fun m => (getModelStatusGroupData m).highestStatus == "blocked"),
            alert := (l.map Prod.snd).filter
              (fun m => (getModelStatusGroupData m).highestStatus == "alert"),
            running := (l.map Prod.snd).filter
              (fun m => (getModelStatusGroupData m).highestStatus == "running") },
          ?_, rfl, rfl, rfl, ?_⟩
  · simpa [groupModelsByStatus] using groupFold_eq l ⟨[], [], []⟩
  · simpa [countModelStatusGroups] using filter_status_length_sum (l.map Prod.snd)

/-! ## Filtering (`filterModelData` in `src/app/root.js`) -/

/-- Add `filters[values[0]].push(values[1])` to the collected segment
map, preserving first-seen key order as JS string-keyed objects do.  The
value is `none` when the filter string had no `":"` (JS `undefined`). -/
def addSegment (acc : List (String × List (Option String))) (key : String)
    (v : Option String) : List (String × List (Option String)) :=
  match acc with
  | [] => [(key, [v])]
  | (k, vs) :: rest =>
    if k = key then (k, vs ++ [v]) :: rest
    else (k, vs) :: addSegment rest key v

/-- The segment-collection loop of `filterModelData`: each filter string
is split on `":"` into `values`; `values[0]` is the segment and
`values[1]` the value. -/
def collectSegments (filters : List String) : List (String × List (Option String)) :=
  filters.foldl
    (fun acc f =>
      let values := jsSplit f ":"
      addSegment acc (values.headD "") (values.get? 1))
    []

/-- One case of the `switch (segment)` inside the removal predicate of
`filterModelData`.  `cloud` and `region` read `data.model` without a
guard (a missing `model` record throws, i.e. `none`); `credential` and
`owner` are guarded by `if (data.info)` and fall through to
`return false` when `info` is absent; `credential` also throws when
`extractCredentialName` does. -/
def segmentRemoves (segment : String) (values : List (Option String))
    (data : ModelData) : Option Bool :=
  if segment = "cloud" then
    match data.model with
    | none => none
    | some m => some (!values.contains (some (extractCloudName m.cloudTag)))
  else if segment = "credential" then
    match data.info with
    | some i =>
      match extractCredentialName i.cloudCredentialTag with
      | none => none
      | some cred => some (!values.contains (some cred))
    | none => some false
  else if segment = "region" then
    match data.model with
    | none => none
    | some m => some (!values.contains m.region)
  else if segment = "owner" then
    match data.info with
    | some i => some (!values.contains (some (extractOwnerName i.ownerTag)))
    | none => some false
  else some false

/-- `Object.entries(filterSegments).some(...)`: short-circuiting
disjunction of the per-segment removal predicate. -/
def someRemove (segs : List (String × List (Option String))) (data : ModelData) :
    Option Bool :=
  match segs with
  | [] => some false
  | s :: rest =>
    match segmentRemoves s.fst s.snd data with
    | none => none
    | some true => some true
    | some false => someRemove rest data

/-- The per-entry loop of `filterModelData`: entries whose removal
predicate holds are deleted from the (deep-cloned) collection; a thrown
predicate aborts the whole call. -/
def filterEntries (segs : List (String × List (Option String))) :
    List (String × ModelData) → Option (List (String × ModelData))
  | [] => some []
  | e :: rest =>
    match someRemove segs e.snd with
    | none => none
    | some r =>
      match filterEntries segs rest with
      | none => none
      | some rest2 => some (if r then rest2 else e :: rest2)

/-- `filterModelData(filters, modelData)`: falsy `filters` returns
`modelData` unchanged; otherwise the collected segments drive the
removal loop over a deep copy (pure values, so the copy is the value
itself). -/
def filterModelData (filters : Option (List String))
    (modelData : List (String × ModelData)) : Option (List (String × ModelData)) :=
  match filters with
  | none => some modelData
  | some fs => filterEntries (collectSegments fs) modelData

theorem filterEntries_idem (segs : List (String × List (Option String)))
    (l res : List (String × ModelData)) (h : filterEntries segs l = some res) :
    filterEntries segs res = some res := by
  induction l generalizing res with
  | nil =>
    simp only [filterEntries, Option.some.injEq] at h
    simpa [filterEntries] using h.symm ▸ rfl
  | cons e rest ih =>
    simp only [filterEntries] at h
    cases hrem : someRemove segs e.snd with
    | none => rw [hrem] at h; exact absurd h (by simp)
    | some r =>
      rw [hrem] at h
      cases hrest : filterEntries segs rest with
      | none => rw [hrest] at h; exact absurd h (by simp)
      | some rest2 =>
        rw [hrest] at h
        simp only [Option.some.injEq] at h
        subst h
        cases r with
        | true => simpa using ih rest2 hrest
        | false =>
          simp only [if_neg Bool.false_ne_true, filterEntries, hrem, ih rest2 hrest]

/-- C7: filtering is idempotent.  Applying `filterModelData` with the
same filter list to its own (possibly thrown) result changes nothing: an
entry kept by the first pass satisfies the same pure per-entry predicate
in the second pass, and a thrown first pass short-circuits the
composition. -/
theorem filterModelData_idem (filters : Option (List String))
    (modelData : List (String × ModelData)) :
    (filterModelData filters modelData).bind (filterModelData filters) =
      filterModelData filters modelData := by
  cases filters with
  | none => rfl
  | some fs =>
    cases h : filterEntries (collectSegments fs) modelData with
    | none => simp [filterModelData, h]
    | some res =>
      simp [filterModelData, h, Option.bind, filterEntries_idem _ _ _ h]

/-! ## Claim C8: missing data and filter segments -/

/-- Spec-side removal condition using only the `cloud` and `region`
segments (the two that read `data.model`): true when some such segment's
value set misses the model's extracted value. -/
def cloudRegionMismatch (segs : List (String × List (Option String)))
    (m : ModelStatus) : Bool :=
  segs.any fun s =>
    (s.fst == "cloud" && !s.snd.contains (some (extractCloudName m.cloudTag))) ||
      (s.fst == "region" && !s.snd.contains m.region)

/-- An entry with neither an `info` nor a `model` record. -/
def bareModelData : ModelData :=
  { applications := [], info := none, model := none }

/-- C8 counterexample: the claim says a segment whose source data is
missing is skipped and the model retained.  For a model that lacks `info`
(and, as nothing guarantees otherwise, also lacks `model`), an active
`cloud` filter reads `data.model.cloudTag` without any guard: the access
throws, the call returns no collection at all, and the model is not
retained. -/
theorem filterModelData_missing_model_cex :
    bareModelData.info = none ∧
      filterModelData (some ["cloud:aws"]) [("u1", bareModelData)] = none := by
  constructor
  · rfl
  · decide

theorem someRemove_of_missing_info (segs : List (String × List (Option String)))
    (d : ModelData) (m : ModelStatus) (hinfo : d.info = none)
    (hm : d.model = some m) :
    someRemove segs d = some (cloudRegionMismatch segs m) := by
  induction segs with
  | nil => simp [someRemove, cloudRegionMismatch]
  | cons s rest ih =>
    by_cases hc : s.fst = "cloud"
    · by_cases hval : some (extractCloudName m.cloudTag) ∈ s.snd <;>
        simp [someRemove, segmentRemoves, cloudRegionMismatch, hc, hm, hval, ih,
          List.any_cons]
    · by_cases hcr : s.fst = "credential"
      · simp [someRemove, segmentRemoves, cloudRegionMismatch, hc, hcr, hinfo, ih,
          List.any_cons]
      · by_cases hr : s.fst = "region"
        · by_cases hval : m.region ∈ s.snd <;>
            simp [someRemove, segmentRemoves, cloudRegionMismatch, hc, hcr, hr, hm,
              hval, ih, List.any_cons]
        · by_cases ho : s.fst = "owner"
          · simp [someRemove, segmentRemoves, cloudRegionMismatch, hc, hcr, hr, ho,
              hinfo, ih, List.any_cons]
          · simp [someRemove, segmentRemoves, cloudRegionMismatch, hc, hcr, hr, ho,
              ih, List.any_cons]

/-- C8 amended: for a model entry that lacks its `info` record but still
has its `model` record, the two `info`-reading segments (`credential` and
`owner`) are skipped — they can never remove the entry — and the outcome
is decided solely by the unguarded `cloud` and `region` segments: the
entry is removed exactly on a definite cloud/region mismatch, and
retained otherwise.  (When the `model` record is missing too, an active
`cloud` or `region` segment throws instead, per the counterexample.) -/
theorem filterModelData_missing_info (filters : List String) (u : String)
    (d : ModelData) (m : ModelStatus) (hinfo : d.info = none)
    (hm : d.model = some m) :
    filterModelData (some filters) [(u, d)] =
      some (if cloudRegionMismatch (collectSegments filters) m then []
            else [(u, d)]) := by
  simp [filterModelData, filterEntries,
    someRemove_of_missing_info (collectSegments filters) d m hinfo hm]

/-- A model entry lacking `info` but with a `model` record, for the C8
witness. -/
def modelOnlyData : ModelData :=
  { applications := [], info := none,
    model := some { cloudTag := "cloud-aws", region := some "us-east-1" } }

/-- Witness for the amended C8 at a concrete entry and filter list: an
active `owner` filter cannot remove a model lacking `info`. -/
theorem filterModelData_missing_info_witness :
    filterModelData (some ["owner:bob"]) [("u1", modelOnlyData)] =
      some (if cloudRegionMismatch (collectSegments ["owner:bob"])
                { cloudTag := "cloud-aws", region := some "us-east-1" } then []
            else [("u1", modelOnlyData)]) :=
  filterModelData_missing_info ["owner:bob"] "u1" modelOnlyData
    { cloudTag := "cloud-aws", region := some "us-east-1" } rfl rfl

/-! ## Root reducer (`rootReducer` in `src/app/root.js`) -/

/-- The bakery's credential store: `storage._store.localStorage`, a
string-keyed map embedded as a function (JS object keys are unique). -/
structure BakeryStore where
  localStorage : String → Option String

/-- The `storage` member of the bakery; `store` embeds the `_store`
field. -/
structure BakeryStorage where
  store : BakeryStore

/-- The bakery instance held in root state. -/
structure Bakery where
  storage : BakeryStorage

/-- The root slice of the redux state (initial state `{}` has every field
absent). -/
structure RootState where
  controllerConnection : Option String
  bakery : Option Bakery
  visitURL : Option String
  modelStatusPolling : Option Bool
  collapsibleSidebar : Option Bool

/-- The actions dispatched to `rootReducer`; `other` is any
unrecognized action type (the reducer's `default` branch). -/
inductive RootAction where
  | updateControllerConnection (payload : String)
  | storeBakery (payload : Bakery)
  | storeVisitURL (payload : String)
  | logOut
  | modelStatusPolling (payload : Bool)
  | collapsibleSidebar (payload : Bool)
  | other

/-- `rootReducer(state, action)`.  `logOut` performs
`delete draftState.bakery.storage._store.localStorage.identity`; if
`bakery` is absent the member access throws (`none`). -/
def rootReducer (state : RootState) (action : RootAction) : Option RootState :=
  match action with
  | .updateControllerConnection p => some { state with controllerConnection := some p }
  | .storeBakery p => some { state with bakery := some p }
  | .storeVisitURL p => some { state with visitURL := some p }
  | .logOut =>
    match state.bakery with
    | none => none
    | some b =>
      some { state with
        bakery := some
          { storage :=
              { store :=
                  { localStorage := fun k =>
                      if k = "identity" then none
                      else b.storage.store.localStorage k } } } }
  | .modelStatusPolling p => some { state with modelStatusPolling := some p }
  | .collapsibleSidebar p => some { state with collapsibleSidebar := some p }
  | .other => some state

/-- C9: `logOut` deletes exactly the `identity` entry nested inside
`bakery.storage._store.localStorage`: the result maps `identity` to
nothing and every other key to its old value, and every other field of
the state is unchanged — the store as a whole is neither cleared nor
replaced. -/
theorem rootReducer_logOut_frame (s : RootState) (b : Bakery)
    (h : s.bakery = some b) :
    rootReducer s RootAction.logOut = some
      { controllerConnection := s.controllerConnection,
        bakery := some
          { storage :=
              { store :=
                  { localStorage := fun k =>
                      if k = "identity" then none
                      else b.storage.store.localStorage k } } },
        visitURL := s.visitURL,
        modelStatusPolling := s.modelStatusPolling,
        collapsibleSidebar := s.collapsibleSidebar } := by
  simp [rootReducer, h]

/-- A concrete root state for the C9 witness: the store holds an
`identity` entry and one other entry. -/
def rootStateEx : RootState :=
  { controllerConnection := some "conn",
    bakery := some
      { storage :=
          { store :=
              { localStorage := fun k =>
                  if k = "identity" then some "macaroon-id"
                  else if k = "charmstore" then some "macaroon-cs"
                  else none } } },
    visitURL := none,
    modelStatusPolling := some true,
    collapsibleSidebar := none }

/-- Witness for C9 at `rootStateEx`. -/
theorem rootReducer_logOut_frame_witness :
    rootReducer rootStateEx RootAction.logOut = some
      { controllerConnection := rootStateEx.controllerConnection,
        bakery := some
          { storage :=
              { store :=
                  { localStorage := fun k =>
                      if k = "identity" then none
                      else if k = "identity" then some "macaroon-id"
                      else if k = "charmstore" then some "macaroon-cs"
                      else none } } },
        visitURL := rootStateEx.visitURL,
        modelStatusPolling := rootStateEx.modelStatusPolling,
        collapsibleSidebar := rootStateEx.collapsibleSidebar } :=
  rootReducer_logOut_frame rootStateEx
    { storage :=
        { store :=
            { localStorage := fun k =>
                if k = "identity" then some "macaroon-id"
                else if k = "charmstore" then some "macaroon-cs"
                else none } } } rfl

/-! ## Poll-cycle task (`fetchAllModelStatuses` /
`fetchAndStoreModelStatus` in the juju module) -/

/-- The two store-write events a poll task can emit. -/
inductive StoreWrite where
  | statusWrite
  | infoWrite
deriving DecidableEq, Repr

/-- Timeline of one queued task, used to index the polling signal:
step 0 — the initial `continueModelStatusPolling` check;
step 1 — the status fetch completes;
step 2 — `updateModelStatus` is dispatched (when the fetch succeeded);
step 3 — the model-info fetch completes;
step 4 — the second `continueModelStatusPolling` check and, when it
passes, the `updateModelInfo` dispatch. -/
def pollCheckpoints : List Nat := [0, 1, 2, 3, 4]

/-- `fetchAndStoreModelStatus(modelUUID, dispatch)`: dispatches
`updateModelStatus` at step 2 whenever the fetched status is non-null —
it never consults the polling signal itself. -/
def fetchAndStoreModelStatusWrites (statusOk : Bool) : List (Nat × StoreWrite) :=
  if statusOk then [(2, StoreWrite.statusWrite)] else []

/-- The body of the task queued per model UUID by
`fetchAllModelStatuses`: the signal is read at step 0 and again at
step 4 (only); `sig` gives the signal's value at each step and
`statusOk` whether the status fetch returned a non-null result. -/
def pollTaskEvents (sig : Nat → Bool) (statusOk : Bool) : List (Nat × StoreWrite) :=
  if sig 0 then
    fetchAndStoreModelStatusWrites statusOk ++
      (if sig 4 then [(4, StoreWrite.infoWrite)] else [])
  else []

/-- A signal that is enabled at the initial check and disabled from the
moment the status fetch starts resolving. -/
def sigDropsAfterStart : Nat → Bool := fun n => n == 0

/-- C5 counterexample: the claim says the signal is re-checked after each
fetch completes and a result fetched before disablement is discarded
once the signal is disabled.  With a signal that flips to disabled
during the status fetch (disabled from step 1 on), the task still
dispatches `updateModelStatus` at step 2: `fetchAndStoreModelStatus`
commits without any re-check, so a store write occurs while the signal
is disabled. -/
theorem pollTaskEvents_write_after_disable_cex :
    pollTaskEvents sigDropsAfterStart true = [(2, StoreWrite.statusWrite)] ∧
      sigDropsAfterStart 1 = false ∧ sigDropsAfterStart 2 = false := by
  refine ⟨rfl, rfl, rfl⟩

/-- C5 amended: the polling signal is read only at task start (step 0)
and after the info fetch (step 4).  The `updateModelInfo` dispatch
happens exactly when both checks pass — so once the second check
observes the signal disabled, nothing is written at or after it — while
the `updateModelStatus` dispatch happens exactly when the initial check
passed and the status fetch succeeded, regardless of any later signal
value: a status fetched before disablement can still be committed after
the signal flips. -/
theorem pollTaskEvents_checkpoints (sig : Nat → Bool) (statusOk : Bool) :
    ((2, StoreWrite.statusWrite) ∈ pollTaskEvents sig statusOk ↔
        sig 0 = true ∧ statusOk = true) ∧
      ((4, StoreWrite.infoWrite) ∈ pollTaskEvents sig statusOk ↔
        sig 0 = true ∧ sig 4 = true) ∧
      (sig 0 = false → pollTaskEvents sig statusOk = []) := by
  cases h0 : sig 0 <;> cases h4 : sig 4 <;> cases hok : statusOk <;>
    simp [pollTaskEvents, fetchAndStoreModelStatusWrites, h0, h4, hok]

/-- Witness for the amended C5: with the signal always enabled and a
successful status fetch, the status write is observed. -/
theorem pollTaskEvents_checkpoints_witness :
    (2, StoreWrite.statusWrite) ∈ pollTaskEvents (fun _ => true) true :=
  (pollTaskEvents_checkpoints (fun _ => true) true).1.mpr ⟨rfl, rfl⟩

/-! ## Polling scheduler (`fetchAllModelStatuses` with
`new Limiter({concurrency: 5})`) -/

/-- Modelled from the spec: the `async-limiter` queue that
`fetchAllModelStatuses` pushes one task per model UUID onto is an
external npm package whose code is not part of the repository; the spec
describes it as a fixed-size worker pool of width 5 in which a task
starts only when fewer than 5 tasks are running and finished tasks leave
the pool.  A scheduler state holds the queued, running and settled
tasks, identified by their model UUID. -/
structure SchedState where
  pending : List String
  running : List String
  finished : List String
deriving DecidableEq, Repr

/-- Modelled from the spec: the initial scheduler state of a poll cycle —
every model UUID queued, nothing running or settled. -/
def initSched (modelUUIDs : List String) : SchedState :=
  { pending := modelUUIDs, running := [], finished := [] }

/-- Modelled from the spec: one scheduler transition — either the next
queued task starts (only when fewer than `concurrency = 5` tasks are
running) or some running task settles, in any order. -/
inductive SchedStep : SchedState → SchedState → Prop
  | start (u : String) (rest r f : List String) (hlt : r.length < 5) :
      SchedStep ⟨u :: rest, r, f⟩ ⟨rest, r ++ [u], f⟩
  | finish (p f r1 r2 : List String) (u : String) :
      SchedStep ⟨p, r1 ++ u :: r2, f⟩ ⟨p, r1 ++ r2, f ++ [u]⟩

/-- Reachability of a scheduler state from the start of a poll cycle. -/
def SchedReach (modelUUIDs : List String) (s : SchedState) : Prop :=
  Relation.ReflTransGen SchedStep (initSched modelUUIDs) s

/-- C6: along every execution of a poll cycle over `modelUUIDs`, at most
5 (the `concurrency` limit) tasks are running at any moment — a queued
task beyond that waits — and the tasks in flight, still queued, and
settled are exactly one per input UUID (each UUID is dispatched as an
independent task, never duplicated or dropped). -/
theorem fetchAllModelStatuses_bounded (modelUUIDs : List String)
    (s : SchedState) (h : SchedReach modelUUIDs s) :
    s.running.length ≤ 5 ∧
      ∀ x : String,
        (s.pending ++ s.running ++ s.finished).count x = modelUUIDs.count x := by
  induction h with
  | refl => simp [initSched]
  | tail _ hstep ih =>
    obtain ⟨ihlen, ihcount⟩ := ih
    cases hstep with
    | start u rest r f hlt =>
      constructor
      · simp only [List.length_append, List.length_cons, List.length_nil]
        omega
      · intro x
        have hc := ihcount x
        simp only [List.cons_append, List.count_append, List.count_cons,
          List.count_nil] at hc ⊢
        omega
    | finish p f r1 r2 u =>
      constructor
      · simp only [List.length_append, List.length_cons] at ihlen ⊢
        omega
      · intro x
        have hc := ihcount x
        simp only [List.cons_append, List.count_append, List.count_cons,
          List.count_nil] at hc ⊢
        omega

/-- Witness for C6 at the initial state of a two-model cycle. -/
theorem fetchAllModelStatuses_bounded_witness :
    (initSched ["m1", "m2"]).running.length ≤ 5 ∧
      ((initSched ["m1", "m2"]).pending ++ (initSched ["m1", "m2"]).running ++
          (initSched ["m1", "m2"]).finished).count "m1" =
        (["m1", "m2"] : List String).count "m1" :=
  ⟨(fetchAllModelStatuses_bounded ["m1", "m2"] _ Relation.ReflTransGen.refl).1,
   (fetchAllModelStatuses_bounded ["m1", "m2"] _ Relation.ReflTransGen.refl).2 "m1"⟩

/-! ## Splitting lemmas for `extractCredentialName` (claim C10) -/

theorem isPrefixOf_self_append (l r : List Char) : l.isPrefixOf (l ++ r) = true := by
  induction l with
  | nil => simp [List.isPrefixOf]
  | cons c cs ih => simp [List.isPrefixOf, ih]

theorem splitSkip_skip (sep : List Char) :
    ∀ (a rest : List Char), splitSkip sep a.length (a ++ rest) = splitSkip sep 0 rest := by
  intro a
  induction a with
  | nil => intro rest; rfl
  | cons c a2 ih => intro rest; simpa [splitSkip] using ih rest

theorem splitSkip_sep_append (sep rest : List Char) (h : sep ≠ []) :
    splitSkip sep 0 (sep ++ rest) = [] :: splitSkip sep 0 rest := by
  cases sep with
  | nil => exact absurd rfl h
  | cons s s2 =>
    have hpre : (s :: s2).isPrefixOf ((s :: s2) ++ rest) = true :=
      isPrefixOf_self_append (s :: s2) rest
    show splitSkip (s :: s2) 0 (s :: (s2 ++ rest)) = _
    rw [splitSkip, if_pos ⟨hpre, by simp⟩]
    simp [splitSkip_skip (s :: s2) s2 rest]

theorem splitSkip_of_not_contains (sep : List Char) :
    ∀ l : List Char, containsSeq sep l = false → splitSkip sep 0 l = [l] := by
  intro l
  induction l with
  | nil => intro _; rfl
  | cons c rest ih =>
    intro h
    simp only [containsSeq, Bool.or_eq_false_iff] at h
    rw [splitSkip, if_neg (by simp [h.1]), ih h.2]

theorem splitSkip_singleton_append (ch : Char) (b : List Char) :
    ∀ a : List Char, containsSeq [ch] a = false →
      splitSkip [ch] 0 (a ++ ch :: b) = a :: splitSkip [ch] 0 b := by
  intro a
  induction a with
  | nil =>
    intro _
    simpa using splitSkip_sep_append [ch] b (by simp)
  | cons c a2 ih =>
    intro h
    simp only [containsSeq, Bool.or_eq_false_iff, List.isPrefixOf,
      Bool.and_eq_false_iff] at h
    have hch : (ch == c) = false := by
      rcases h.1 with h1 | h1
      · exact h1
      · simp [List.isPrefixOf] at h1
    show splitSkip [ch] 0 (c :: (a2 ++ ch :: b)) = _
    rw [splitSkip, if_neg (by simp [List.isPrefixOf, hch]), ih h.2]

theorem jsSplit_eq (s sep : String) (h : sep ≠ "") :
    jsSplit s sep = (splitSkip sep.data 0 s.data).map String.mk := by
  simp [jsSplit, h]

/-- A model entry whose `info.cloudCredentialTag` is malformed (no
`"cloudcred-"` in it). -/
def badCredData : ModelData :=
  { applications := [],
    info := some
      { name := "m1", ownerTag := "user-bob", cloudTag := "cloud-aws",
        cloudRegion := "us-east-1", cloudCredentialTag := "bogus" },
    model := none }

/-- C10: `extractCredentialName` is partial at its interface.  For a
well-formed tag `cloudcred-<cloud>_<user>@<domain>_<name>` — the four
tokens containing no further occurrence of the separators, as the tag
grammar intends — it returns `<name>`.  For an input not containing
`"cloudcred-"`, or whose remainder after `"cloudcred-"` contains no
`"@"`, the chained splits index past the end (`undefined` in JS) and the
function throws (`none`); consequently filter-segment extraction over a
model collection fails (`none`) on a model whose `cloudCredentialTag` is
malformed. -/
theorem extractCredentialName_spec (c u d n : String)
    (h1 : strContains (c ++ "_" ++ u ++ "@" ++ d ++ "_" ++ n) "cloudcred-" = false)
    (h2 : strContains (c ++ "_" ++ u) "@" = false)
    (h3 : strContains (d ++ "_" ++ n) "@" = false)
    (h4 : strContains d "_" = false)
    (h5 : strContains n "_" = false) :
    extractCredentialName
        ("cloudcred-" ++ (c ++ "_" ++ u ++ "@" ++ d ++ "_" ++ n)) = some n ∧
      (∀ tag : String, strContains tag "cloudcred-" = false →
        extractCredentialName tag = none) ∧
      (∀ rest : String, strContains rest "cloudcred-" = false →
        strContains rest "@" = false →
          extractCredentialName ("cloudcred-" ++ rest) = none) ∧
      filterModelData (some ["credential:c1"]) [("u1", badCredData)] = none := by
  refine ⟨?_, ?_, ?_, ?_⟩
  · have h1l : containsSeq ("cloudcred-").data
        (c ++ "_" ++ u ++ "@" ++ d ++ "_" ++ n).data = false := h1
    have h2l : containsSeq ['@'] (c ++ "_" ++ u).data = false := h2
    have h3l : containsSeq ['@'] (d ++ "_" ++ n).data = false := h3
    have h4l : containsSeq ['_'] d.data = false := h4
    have h5l : containsSeq ['_'] n.data = false := h5
    have hrest : (c ++ "_" ++ u ++ "@" ++ d ++ "_" ++ n).data
        = (c ++ "_" ++ u).data ++ '@' :: (d ++ "_" ++ n).data := by
      simp only [String.data_append, List.append_assoc,
        show ("@" : String).data = ['@'] from rfl, List.singleton_append,
        List.cons_append, List.nil_append]
    have hdn : (d ++ "_" ++ n).data = d.data ++ '_' :: n.data := by
      simp only [String.data_append, List.append_assoc,
        show ("_" : String).data = ['_'] from rfl, List.singleton_append,
        List.cons_append, List.nil_append]
    have e1 : jsSplit ("cloudcred-" ++ (c ++ "_" ++ u ++ "@" ++ d ++ "_" ++ n))
        "cloudcred-" = ["", c ++ "_" ++ u ++ "@" ++ d ++ "_" ++ n] := by
      rw [jsSplit_eq _ _ (by decide), String.data_append,
        splitSkip_sep_append _ _ (by decide), splitSkip_of_not_contains _ _ h1l]
      rfl
    have e2 : jsSplit (c ++ "_" ++ u ++ "@" ++ d ++ "_" ++ n) "@"
        = [c ++ "_" ++ u, d ++ "_" ++ n] := by
      rw [jsSplit_eq _ _ (by decide),
        show ("@" : String).data = ['@'] from rfl, hrest,
        splitSkip_singleton_append _ _ _ h2l, splitSkip_of_not_contains _ _ h3l]
      rfl
    have e3 : jsSplit (d ++ "_" ++ n) "_" = [d, n] := by
      rw [jsSplit_eq _ _ (by decide),
        show ("_" : String).data = ['_'] from rfl, hdn,
        splitSkip_singleton_append _ _ _ h4l, splitSkip_of_not_contains _ _ h5l]
      rfl
    simp [extractCredentialName, e1, e2, e3]
  · intro tag h
    have hl : containsSeq ("cloudcred-").data tag.data = false := h
    have e : jsSplit tag "cloudcred-" = [String.mk tag.data] := by
      rw [jsSplit_eq _ _ (by decide), splitSkip_of_not_contains _ _ hl]
      rfl
    simp [extractCredentialName, e]
  · intro rest hcc hat
    have hccl : containsSeq ("cloudcred-").data rest.data = false := hcc
    have hatl : containsSeq ['@'] rest.data = false := hat
    have e1 : jsSplit ("cloudcred-" ++ rest) "cloudcred-" = ["", rest] := by
      rw [jsSplit_eq _ _ (by decide), String.data_append,
        splitSkip_sep_append _ _ (by decide), splitSkip_of_not_contains _ _ hccl]
      rfl
    have e2 : jsSplit rest "@" = [rest] := by
      rw [jsSplit_eq _ _ (by decide),
        show ("@" : String).data = ['@'] from rfl,
        splitSkip_of_not_contains _ _ hatl]
      rfl
    simp [extractCredentialName, e1, e2]
  · decide

/-- Witness for C10 at the concrete tag
`"cloudcred-aws_user@external_cred1"`. -/
theorem extractCredentialName_spec_witness :
    extractCredentialName
      ("cloudcred-" ++ ("aws" ++ "_" ++ "user" ++ "@" ++ "external" ++ "_" ++ "cred1"))
      = some "cred1" :=
  (extractCredentialName_spec "aws" "user" "external" "cred1" (by decide)
    (by decide) (by decide) (by decide) (by decide)).1
